import Mathlib

/-!
Verification of the HealthMate backend (src/main.py): data model, password
hashing, UID allocation, registration and authentication workflows, and the
dashboard lookup, embedded shallowly in Lean 4.
-/

set_option maxRecDepth 4096

namespace HealthMate

/-! ## SHA-256 (embedding of hashlib.sha256(...).hexdigest() on UTF-8 bytes) -/

/-- Reduce a natural number to a 32-bit word. -/
def w32 (n : Nat) : Nat := n % 4294967296

/-- 32-bit addition with wraparound. -/
def add32 (a b : Nat) : Nat := (a + b) % 4294967296

/-- 32-bit right rotation. -/
def rotr (n x : Nat) : Nat := ((x >>> n) ||| (x <<< (32 - n))) % 4294967296

/-- Bitwise complement within 32 bits. -/
def not32 (x : Nat) : Nat := 4294967295 ^^^ x

def smallSigma0 (x : Nat) : Nat := rotr 7 x ^^^ rotr 18 x ^^^ (x >>> 3)

def smallSigma1 (x : Nat) : Nat := rotr 17 x ^^^ rotr 19 x ^^^ (x >>> 10)

def bigSigma0 (x : Nat) : Nat := rotr 2 x ^^^ rotr 13 x ^^^ rotr 22 x

def bigSigma1 (x : Nat) : Nat := rotr 6 x ^^^ rotr 11 x ^^^ rotr 25 x

def ch (x y z : Nat) : Nat := (x &&& y) ^^^ (not32 x &&& z)

def maj (x y z : Nat) : Nat := (x &&& y) ^^^ (x &&& z) ^^^ (y &&& z)

/-- The eight 32-bit working variables of the SHA-256 state. -/
structure Hash8 where
  a : Nat
  b : Nat
  c : Nat
  d : Nat
  e : Nat
  f : Nat
  g : Nat
  h : Nat
deriving DecidableEq, Repr

/-- SHA-256 initial hash value (FIPS 180-4, written in decimal). -/
def initH : Hash8 :=
  ⟨1779033703, 3144134277, 1013904242, 2773480762,
   1359893119, 2600822924, 528734635, 1541459225⟩

/-- SHA-256 round constants (FIPS 180-4, written in decimal). -/
def K256 : List Nat :=
  [1116352408, 1899447441, 3049323471, 3921009573,
   961987163, 1508970993, 2453635748, 2870763221,
   3624381080, 310598401, 607225278, 1426881987,
   1925078388, 2162078206, 2614888103, 3248222580,
   3835390401, 4022224774, 264347078, 604807628,
   770255983, 1249150122, 1555081692, 1996064986,
   2554220882, 2821834349, 2952996808, 3210313671,
   3336571891, 3584528711, 113926993, 338241895,
   666307205, 773529912, 1294757372, 1396182291,
   1695183700, 1986661051, 2177026350, 2456956037,
   2730485921, 2820302411, 3259730800, 3345764771,
   3516065817, 3600352804, 4094571909, 275423344,
   430227734, 506948616, 659060556, 883997877,
   958139571, 1322822218, 1537002063, 1747873779,
   1955562222, 2024104815, 2227730452, 2361852424,
   2428436474, 2756734187, 3204031479, 3329325298]

/-- Group a byte list into big-endian 32-bit words. -/
def toWords : List Nat → List Nat
  | b0 :: b1 :: b2 :: b3 :: rest =>
      (b0 * 16777216 + b1 * 65536 + b2 * 256 + b3) :: toWords rest
  | _ => []

/-- Append one word of the SHA-256 message schedule. -/
def extendStep (w : List Nat) : List Nat :=
  let n := w.length
  w ++ [add32 (add32 (smallSigma1 (w.getD (n - 2) 0)) (w.getD (n - 7) 0))
              (add32 (smallSigma0 (w.getD (n - 15) 0)) (w.getD (n - 16) 0))]

/-- Iterate the schedule extension. -/
def extendN : Nat → List Nat → List Nat
  | 0, w => w
  | k + 1, w => extendN k (extendStep w)

/-- One SHA-256 compression round. -/
def compressStep (s : Hash8) (kw : Nat × Nat) : Hash8 :=
  let t1 := add32 s.h (add32 (bigSigma1 s.e) (add32 (ch s.e s.f s.g) (add32 kw.1 kw.2)))
  let t2 := add32 (bigSigma0 s.a) (maj s.a s.b s.c)
  ⟨add32 t1 t2, s.a, s.b, s.c, add32 s.d t1, s.e, s.f, s.g⟩

/-- Process one 64-byte chunk. -/
def compressChunk (s : Hash8) (chunk : List Nat) : Hash8 :=
  let w := extendN 48 (toWords chunk)
  let t := (K256.zip w).foldl compressStep s
  ⟨add32 s.a t.a, add32 s.b t.b, add32 s.c t.c, add32 s.d t.d,
   add32 s.e t.e, add32 s.f t.f, add32 s.g t.g, add32 s.h t.h⟩

/-- Number of zero padding bytes for a message of n bytes. -/
def padZeros (n : Nat) : Nat := (119 - n % 64) % 64

/-- Big-endian 8-byte encoding of the bit length. -/
def lenBytes (v : Nat) : List Nat :=
  [(v >>> 56) % 256, (v >>> 48) % 256, (v >>> 40) % 256, (v >>> 32) % 256,
   (v >>> 24) % 256, (v >>> 16) % 256, (v >>> 8) % 256, v % 256]

/-- SHA-256 padding of a byte list. -/
def pad (msg : List Nat) : List Nat :=
  msg ++ 0x80 :: List.replicate (padZeros msg.length) 0 ++ lenBytes (8 * msg.length)

/-- Split into 64-byte chunks (fuel-driven structural recursion). -/
def chunksAux : Nat → List Nat → List (List Nat)
  | 0, _ => []
  | _ + 1, [] => []
  | fuel + 1, l => l.take 64 :: chunksAux fuel (l.drop 64)

/-- The SHA-256 state after absorbing a whole byte message. -/
def sha256 (msg : List Nat) : Hash8 :=
  let p := pad msg
  (chunksAux p.length p).foldl compressChunk initH

/-- A final state read as one 256-bit big-endian number. -/
def digestNat (s : Hash8) : Nat :=
  ((((((s.a * 4294967296 + s.b) * 4294967296 + s.c) * 4294967296 + s.d) * 4294967296 + s.e)
      * 4294967296 + s.f) * 4294967296 + s.g) * 4294967296 + s.h

/-- The SHA-256 digest of a byte message, as a 256-bit natural number. -/
def sha256Nat (msg : List Nat) : Nat :=
  digestNat (sha256 msg)

/-- The lowercase hexadecimal digit for a value below 16, as produced by
the hexdigest output of hashlib. -/
def hexChar (n : Nat) : Char := Nat.digitChar n

/-- Fixed-width big-endian hexadecimal rendering. -/
def toHexFixed : Nat → Nat → List Char
  | 0, _ => []
  | k + 1, v => toHexFixed k (v / 16) ++ [hexChar (v % 16)]

/-- UTF-8 encoding of one character. -/
def utf8Char (c : Char) : List Nat :=
  let n := c.toNat
  if n < 0x80 then [n]
  else if n < 0x800 then [0xc0 ||| (n >>> 6), 0x80 ||| (n &&& 0x3f)]
  else if n < 0x10000 then
    [0xe0 ||| (n >>> 12), 0x80 ||| ((n >>> 6) &&& 0x3f), 0x80 ||| (n &&& 0x3f)]
  else
    [0xf0 ||| (n >>> 18), 0x80 ||| ((n >>> 12) &&& 0x3f),
     0x80 ||| ((n >>> 6) &&& 0x3f), 0x80 ||| (n &&& 0x3f)]

/-- UTF-8 encoding of a string, mirroring password.encode in the source. -/
def utf8Encode (s : String) : List Nat :=
  (s.data.map utf8Char).flatten

/-- hexdigest of the SHA-256 of a byte message. -/
def hexdigest (msg : List Nat) : String :=
  ⟨toHexFixed 64 (sha256Nat msg)⟩

/-- get_password_hash from src/main.py: SHA-256 hexdigest of the UTF-8 bytes. -/
def get_password_hash (password : String) : String :=
  hexdigest (utf8Encode password)

/-- verify_password from src/main.py. -/
def verify_password (plain_password hashed_password : String) : Bool :=
  get_password_hash plain_password == hashed_password

/-! ## Data model: the users table of src/main.py -/

/-- One row of the users table (class User in src/main.py). The internal
autoincrement id column is represented by the position in the store list.
The uid column is an unbounded integer, name and email are non-nullable,
phone is nullable, password holds the digest, role defaults to "user". -/
structure Account where
  uid : Int
  name : String
  email : String
  phone : Option String
  password : String
  role : String
deriving DecidableEq, Repr

/-- The persistent store: rows of the users table in insertion order. -/
abbrev Store := List Account

/-- The SELECT max(uid) FROM users query in get_next_uid: None on an empty
table, otherwise the maximum uid. -/
def maxUid : Store → Option Int
  | [] => none
  | u :: rest =>
      match maxUid rest with
      | none => some u.uid
      | some m => some (max u.uid m)

/-- get_next_uid from src/main.py lines 85-90. -/
def get_next_uid (db : Store) : Int :=
  match maxUid db with
  | none => 10000
  | some max_uid => if max_uid < 10000 then 10000 else max_uid + 1

/-- The db.query(User).filter(User.email == email).first() lookup. -/
def findByEmail (db : Store) (email : String) : Option Account :=
  db.find? (fun u => u.email == email)

/-- The same lookup when the filter value comes from data.get and may be
absent: comparing against SQL NULL matches no row of the non-nullable
email column. -/
def findByEmailOpt (db : Store) (email : Option String) : Option Account :=
  match email with
  | none => none
  | some e => findByEmail db e

/-! ## Authentication workflow (login_user, src/main.py lines 165-181) -/

/-- The dashboard path chosen from a role (lines 177 and 207). -/
def dashPath (role : String) : String :=
  if role == "doctor" then "/doctor_dashboard" else "/dashboard"

/-- login_user from src/main.py: every outcome is a 303 redirect, identified
here by its URL: a dashboard URL carrying the uid on success, the role
error URL on a role mismatch, and the single invalid-credentials URL when
the email is unknown or the password digest does not match. -/
def login_user (db : Store) (email password role : String) : String :=
  match findByEmail db email with
  | some user =>
      if verify_password password user.password then
        if user.role == role then
          dashPath user.role ++ "?uid=" ++ toString user.uid
        else "/login?error=Incorrect role selected."
      else "/login?error=Invalid email or password."
  | none => "/login?error=Invalid email or password."

/-- Whether one character list is an initial segment of another. -/
def charsPrefix : List Char → List Char → Bool
  | [], _ => true
  | _ :: _, [] => false
  | c :: cs, d :: ds => c == d && charsPrefix cs ds

/-- Whether a login outcome is a redirect to one of the two dashboards. -/
def isDashboardRedirect (s : String) : Bool :=
  charsPrefix "/dashboard".data s.data || charsPrefix "/doctor_dashboard".data s.data

/-! ## Registration workflow (signup_user, src/main.py lines 183-210) -/

/-- The JSON body of a POST /signup request: data.get of each key yields
None when the key is absent. -/
structure SignupData where
  name : Option String
  email : Option String
  phone : Option String
  password : Option String
  confirm_password : Option String
  role : Option String
deriving DecidableEq, Repr

/-- The JSONResponse returned by signup_user. -/
structure SignupResponse where
  status : Nat
  message : String
  redirect_url : Option String
deriving DecidableEq, Repr

/-- The User row built at src/main.py lines 196-203 once password, name and
email are known to be present. -/
def newUserOf (db : Store) (data : SignupData) (pw nm em : String) : Account :=
  { uid := get_next_uid db
    name := nm
    email := em
    phone := data.phone
    password := get_password_hash pw
    role := data.role.getD "user" }

/-- signup_user from src/main.py. The commitOk flag models whether the
db.commit persistence step succeeds; on any raised exception (a missing
password reaching get_password_hash, a NULL name or email violating the
non-null column constraints at commit, or a failing commit) the except
branch answers 500 and the uncommitted session leaves the table unchanged. -/
def signup_user (db : Store) (data : SignupData) (commitOk : Bool) :
    SignupResponse × Store :=
  if data.password ≠ data.confirm_password then
    (⟨400, "Passwords do not match.", none⟩, db)
  else if (findByEmailOpt db data.email).isSome then
    (⟨409, "Email already registered.", none⟩, db)
  else
    match data.password, data.name, data.email with
    | some pw, some nm, some em =>
        let new_user := newUserOf db data pw nm em
        if commitOk then
          (⟨201, "Success", some (dashPath new_user.role ++ "?uid=" ++ toString new_user.uid)⟩,
           db ++ [new_user])
        else (⟨500, "Internal server error during signup.", none⟩, db)
    | _, _, _ => (⟨500, "Internal server error during signup.", none⟩, db)

/-- A sequence of POST /signup requests executed one after another, each
paired with the success flag of its persistence step. -/
def runSignups (reqs : List (SignupData × Bool)) (db : Store) : Store :=
  match reqs with
  | [] => db
  | r :: rs => runSignups rs (signup_user db r.1 r.2).2

/-! ## Dashboard lookup (read_dashboard, src/main.py lines 212-219) -/

/-- read_dashboard from src/main.py, restricted to the display name it
resolves: user_name stays "Anonymous" unless the uid query parameter is
present and truthy (a Python int is falsy exactly when it is 0) and a row
with that uid exists. -/
def read_dashboard (db : Store) (uid : Option Int) : String :=
  match uid with
  | none => "Anonymous"
  | some n =>
      if n ≠ 0 then
        match db.find? (fun u => u.uid == n) with
        | some user => user.name
        | none => "Anonymous"
      else "Anonymous"

/-! ## Lemmas about the UID allocator -/

/-- maxUid answers None exactly on the empty table. -/
theorem maxUid_eq_none_iff (db : Store) : maxUid db = none ↔ db = [] := by
  cases db with
  | nil => simp [maxUid]
  | cons u rest =>
      simp only [maxUid]
      cases maxUid rest <;> simp

/-- Every uid in the table is bounded by the maxUid answer. -/
theorem le_of_maxUid (db : Store) (m : Int) (hm : maxUid db = some m) :
    ∀ u ∈ db, u.uid ≤ m := by
  induction db generalizing m with
  | nil => simp
  | cons a rest ih =>
      intro u hu
      simp only [maxUid] at hm
      rcases hrest : maxUid rest with _ | m'
      · rw [hrest] at hm
        simp only [Option.some.injEq] at hm
        have : rest = [] := (maxUid_eq_none_iff rest).mp hrest
        subst this
        rcases List.mem_cons.mp hu with h | h
        · subst h; omega
        · simp at h
      · rw [hrest] at hm
        simp only [Option.some.injEq] at hm
        rcases List.mem_cons.mp hu with h | h
        · subst h
          rw [← hm]
          exact le_max_left _ _
        · have := ih m' hrest u h
          rw [← hm]
          exact le_trans this (le_max_right _ _)

/-- The maxUid answer is the uid of some row. -/
theorem maxUid_mem (db : Store) (m : Int) (hm : maxUid db = some m) :
    m ∈ db.map Account.uid := by
  induction db generalizing m with
  | nil => simp [maxUid] at hm
  | cons a rest ih =>
      simp only [maxUid] at hm
      rcases hrest : maxUid rest with _ | m'
      · rw [hrest] at hm
        simp only [Option.some.injEq] at hm
        subst hm
        simp
      · rw [hrest] at hm
        simp only [Option.some.injEq] at hm
        rcases max_choice a.uid m' with h | h
        · rw [h] at hm
          subst hm
          simp
        · rw [h] at hm
          subst hm
          simp only [List.map_cons, List.mem_cons]
          exact Or.inr (ih m' hrest)

/-- The allocator always answers at least 10000. -/
theorem get_next_uid_ge (db : Store) : 10000 ≤ get_next_uid db := by
  unfold get_next_uid
  rcases h : maxUid db with _ | m
  · simp
  · simp only []
    split <;> omega

/-- The allocator answer is strictly above every uid already in the table. -/
theorem uid_lt_get_next_uid (db : Store) (u : Account) (hu : u ∈ db) :
    u.uid < get_next_uid db := by
  unfold get_next_uid
  rcases h : maxUid db with _ | m
  · have : db = [] := (maxUid_eq_none_iff db).mp h
    subst this
    simp at hu
  · have hle := le_of_maxUid db m h u hu
    simp only []
    split <;> omega

/-- The claimed characterization of the maximum uid: a uid present in the
table that bounds every uid in the table. -/
def isMaxUid (db : Store) (m : Int) : Prop :=
  m ∈ db.map Account.uid ∧ ∀ v ∈ db.map Account.uid, v ≤ m

instance (db : Store) (m : Int) : Decidable (isMaxUid db m) :=
  inferInstanceAs (Decidable (_ ∧ _))

/-- C2: get_next_uid answers 10000 on an empty store and whenever the
maximum existing uid is below 10000, and the maximum plus one otherwise. -/
theorem claim_C2_next_uid (db : Store) :
    (db = [] → get_next_uid db = 10000)
    ∧ (∀ m : Int, isMaxUid db m → m < 10000 → get_next_uid db = 10000)
    ∧ (∀ m : Int, isMaxUid db m → 10000 ≤ m → get_next_uid db = m + 1) := by
  have key : ∀ m : Int, isMaxUid db m → maxUid db = some m := by
    intro m hm
    rcases h : maxUid db with _ | m'
    · have : db = [] := (maxUid_eq_none_iff db).mp h
      subst this
      rcases hm.1 with h
      simp at h
    · have h1 : m' ∈ db.map Account.uid := maxUid_mem db m' h
      rcases List.mem_map.mp h1 with ⟨u, hu, hum⟩
      have h2 : m' ≤ m := hm.2 m' h1
      rcases List.mem_map.mp hm.1 with ⟨v, hv, hvm⟩
      have h3 : m ≤ m' := by
        have := le_of_maxUid db m' h v hv
        omega
      have : m = m' := le_antisymm h3 h2
      subst this
      rfl
  refine ⟨?_, ?_, ?_⟩
  · intro h
    subst h
    rfl
  · intro m hm hlt
    unfold get_next_uid
    rw [key m hm]
    simp only []
    split <;> omega
  · intro m hm hge
    unfold get_next_uid
    rw [key m hm]
    simp only []
    split <;> omega

/-- Witness for C2: the empty store, a store whose maximum uid 10500 is at
least 10000, and a store whose maximum uid 5 is below 10000. -/
theorem claim_C2_next_uid_witness :
    get_next_uid [] = 10000
    ∧ get_next_uid [⟨10000, "A", "a@x.com", none, "", "user"⟩,
                    ⟨10500, "B", "b@x.com", none, "", "user"⟩] = 10501
    ∧ get_next_uid [⟨5, "C", "c@x.com", none, "", "user"⟩] = 10000 :=
  ⟨(claim_C2_next_uid []).1 rfl,
   (claim_C2_next_uid _).2.2 10500 (by decide) (by decide),
   (claim_C2_next_uid _).2.1 5 (by decide) (by decide)⟩

/-! ## The store invariant maintained by sequential registrations -/

/-- Invariant of stores reachable by signups from the empty store: all uids
at least 10000, uids strictly increasing in insertion order, and the first
inserted row carries uid 10000. -/
def storeInv (db : Store) : Prop :=
  (∀ u ∈ db, (10000 : Int) ≤ u.uid)
  ∧ db.Pairwise (fun a b => a.uid < b.uid)
  ∧ (∀ a, db.head? = some a → a.uid = 10000)

/-- A signup either leaves the store unchanged or appends exactly one row
whose uid is the allocator answer. -/
theorem signup_store_shape (db : Store) (d : SignupData) (ok : Bool) :
    (signup_user db d ok).2 = db ∨
    ∃ a, (signup_user db d ok).2 = db ++ [a] ∧ a.uid = get_next_uid db := by
  unfold signup_user
  repeat' split
  all_goals first
    | (left; rfl)
    | (right; exact ⟨_, rfl, rfl⟩)

/-- One signup step preserves the store invariant. -/
theorem storeInv_signup (db : Store) (d : SignupData) (ok : Bool)
    (h : storeInv db) : storeInv (signup_user db d ok).2 := by
  rcases signup_store_shape db d ok with hs | ⟨a, hs, ha⟩
  · rw [hs]; exact h
  · rw [hs]
    refine ⟨?_, ?_, ?_⟩
    · intro u hu
      rcases List.mem_append.mp hu with h1 | h1
      · exact h.1 u h1
      · simp only [List.mem_singleton] at h1
        subst h1
        rw [ha]
        exact get_next_uid_ge db
    · refine List.pairwise_append.mpr ⟨h.2.1, List.pairwise_singleton _ _, ?_⟩
      intro x hx y hy
      simp only [List.mem_singleton] at hy
      subst hy
      rw [ha]
      exact uid_lt_get_next_uid db x hx
    · intro b hb
      cases db with
      | nil =>
          simp only [List.nil_append, List.head?_cons, Option.some.injEq] at hb
          subst hb
          rw [ha]
          rfl
      | cons c rest =>
          simp only [List.cons_append, List.head?_cons, Option.some.injEq] at hb
          subst hb
          exact h.2.2 _ rfl

/-- Running any request sequence preserves the store invariant. -/
theorem storeInv_runSignups (reqs : List (SignupData × Bool)) (db : Store)
    (h : storeInv db) : storeInv (runSignups reqs db) := by
  induction reqs generalizing db with
  | nil => exact h
  | cons r rs ih => exact ih _ (storeInv_signup db r.1 r.2 h)

/-- C1: for every sequence of signup requests executed one after another
against the initially empty store, the uids of all persisted accounts are
pairwise distinct and at least 10000, and the first persisted account (the
one created by the first successful registration, since every successful
registration appends its row and failures change nothing) has uid exactly
10000. -/
theorem claim_C1_uids_unique (reqs : List (SignupData × Bool)) :
    ((runSignups reqs []).map Account.uid).Nodup
    ∧ (∀ u ∈ runSignups reqs [], (10000 : Int) ≤ u.uid)
    ∧ (runSignups reqs []).head?.all (fun a => a.uid == 10000) = true := by
  have hinv : storeInv (runSignups reqs []) :=
    storeInv_runSignups reqs []
      ⟨by simp, List.Pairwise.nil, by simp⟩
  refine ⟨?_, hinv.1, ?_⟩
  · exact hinv.2.1.map Account.uid (fun a b hlt => ne_of_lt hlt)
  · cases hh : (runSignups reqs []).head? with
    | none => rfl
    | some a =>
        have := hinv.2.2 a hh
        simp [Option.all, this]

/-- A well-formed signup request for Alice, used by witnesses. -/
def dataA : SignupData :=
  ⟨some "Alice", some "a@x.com", none, some "p", some "p", some "patient"⟩

/-- Witness for C1: running the single successful registration of Alice,
the persisted account satisfies the uid lower bound. -/
theorem claim_C1_uids_unique_witness :
    (10000 : Int) ≤ (newUserOf [] dataA "p" "Alice" "a@x.com").uid :=
  (claim_C1_uids_unique [(dataA, true)]).2.1
    (newUserOf [] dataA "p" "Alice" "a@x.com") (List.Mem.head _)

/-! ## Lemmas about lookups and hashing -/

/-- When the mapped keys are pairwise distinct, find? on the key of a
member returns exactly that member. -/
theorem find?_key_unique {κ : Type} [BEq κ] [LawfulBEq κ] (key : Account → κ)
    (db : Store) (u : Account) (hu : u ∈ db) (hn : (db.map key).Nodup) :
    db.find? (fun v => key v == key u) = some u := by
  induction db with
  | nil => simp at hu
  | cons a rest ih =>
      rw [List.map_cons] at hn
      rcases List.nodup_cons.mp hn with ⟨hna, hnr⟩
      rcases List.mem_cons.mp hu with h | h
      · subst h
        have hself : (key u == key u) = true := beq_self_eq_true _
        simp [List.find?_cons, hself]
      · have hne : (key a == key u) = false := by
          apply beq_eq_false_iff_ne.mpr
          intro hk
          rw [hk] at hna
          exact hna (List.mem_map_of_mem key h)
        simp only [List.find?_cons, hne, Bool.false_eq_true, if_false]
        exact ih h hnr

/-- The hexadecimal rendering has exactly the requested width. -/
theorem toHexFixed_length (k v : Nat) : (toHexFixed k v).length = k := by
  induction k generalizing v with
  | zero => rfl
  | succ n ih => simp [toHexFixed, ih]

/-- Password digests are 64 characters long. -/
theorem get_password_hash_length (p : String) :
    (get_password_hash p).length = 64 := by
  show (String.mk (toHexFixed 64 (sha256Nat (utf8Encode p)))).length = 64
  simp [String.length, toHexFixed_length]

/-- Verification fails against any stored string that is not 64 characters
long, hence against anything except a digest. -/
theorem verify_password_false_of_length (p d : String) (h : d.length ≠ 64) :
    verify_password p d = false := by
  apply beq_eq_false_iff_ne.mpr
  intro he
  rw [← he] at h
  exact h (get_password_hash_length p)

/-- Verification succeeds on the digest of the same password. -/
theorem verify_password_hash_self (p : String) :
    verify_password p (get_password_hash p) = true :=
  beq_self_eq_true _

/-! ## C3: login error handling -/

/-- C3: when no account carries the submitted email, or password
verification against the stored digest fails, login answers the single
undifferentiated invalid-credentials redirect; when the credentials verify
but the submitted role differs from the stored one, login answers the
distinct role-error redirect, which is not a dashboard redirect. In the
source every outcome is an HTTP 303 redirect, so the two error kinds are
identified by their URLs. -/
theorem claim_C3_login_errors (db : Store) (email password role : String) :
    (findByEmail db email = none →
      login_user db email password role = "/login?error=Invalid email or password.")
    ∧ (∀ u, findByEmail db email = some u →
        verify_password password u.password = false →
        login_user db email password role = "/login?error=Invalid email or password.")
    ∧ (∀ u, findByEmail db email = some u →
        verify_password password u.password = true →
        u.role ≠ role →
        login_user db email password role = "/login?error=Incorrect role selected."
        ∧ isDashboardRedirect (login_user db email password role) = false
        ∧ ("/login?error=Incorrect role selected." : String)
            ≠ "/login?error=Invalid email or password.") := by
  refine ⟨?_, ?_, ?_⟩
  · intro h
    unfold login_user
    rw [h]
  · intro u hu hv
    unfold login_user
    rw [hu]
    simp [hv]
  · intro u hu hv hr
    have hrb : (u.role == role) = false := beq_eq_false_iff_ne.mpr hr
    have hres : login_user db email password role
        = "/login?error=Incorrect role selected." := by
      unfold login_user
      rw [hu]
      simp [hv, hrb]
    refine ⟨hres, ?_, by decide⟩
    rw [hres]
    decide

/-- Accounts used by the C3 witness: one whose stored password field is not
a digest, one storing the digest of "p" with role "user". -/
def accA : Account := ⟨10000, "A", "a@x.com", none, "x", "user"⟩

def accB : Account := ⟨10001, "B", "b@x.com", none, get_password_hash "p", "user"⟩

/-- Witness for C3: an unknown email, a failing password, and a role
mismatch on otherwise valid credentials. -/
theorem claim_C3_login_errors_witness :
    login_user [] "a@x.com" "p" "user" = "/login?error=Invalid email or password."
    ∧ login_user [accA] "a@x.com" "p" "user" = "/login?error=Invalid email or password."
    ∧ login_user [accB] "b@x.com" "p" "doctor" = "/login?error=Incorrect role selected." :=
  ⟨(claim_C3_login_errors [] "a@x.com" "p" "user").1 rfl,
   (claim_C3_login_errors [accA] "a@x.com" "p" "user").2.1 accA rfl
     (verify_password_false_of_length "p" "x" (by decide)),
   ((claim_C3_login_errors [accB] "b@x.com" "p" "doctor").2.2 accB rfl
     (verify_password_hash_self "p") (by decide)).1⟩

/-! ## C4: successful login -/

/-- C4: for every account in a store with pairwise distinct emails, logging
in with its email, a password hashing to its stored digest, and its stored
role redirects to a dashboard URL carrying exactly its uid, and the path is
the doctor dashboard precisely when the stored role is doctor, the plain
dashboard otherwise. -/
theorem claim_C4_login_success (db : Store) (u : Account) (password role : String)
    (hn : (db.map Account.email).Nodup) (hu : u ∈ db)
    (hp : get_password_hash password = u.password) (hr : role = u.role) :
    login_user db u.email password role
      = dashPath u.role ++ "?uid=" ++ toString u.uid
    ∧ (dashPath u.role = "/doctor_dashboard" ↔ u.role = "doctor")
    ∧ (dashPath u.role = "/dashboard" ↔ u.role ≠ "doctor") := by
  have hfind : findByEmail db u.email = some u := find?_key_unique Account.email db u hu hn
  have hv : verify_password password u.password = true := by
    unfold verify_password
    rw [hp]
    exact beq_self_eq_true _
  have hrb : (u.role == role) = true := by
    rw [hr]
    exact beq_self_eq_true _
  refine ⟨?_, ?_, ?_⟩
  · unfold login_user
    rw [hfind]
    simp [hv, hrb]
  · unfold dashPath
    split
    next hd => exact ⟨fun _ => beq_iff_eq.mp hd, fun _ => rfl⟩
    next hd =>
      have h2 : u.role ≠ "doctor" := by
        intro hrole
        exact hd (by rw [hrole]; exact beq_self_eq_true _)
      exact ⟨fun habs => absurd habs (by decide), fun hrole => absurd hrole h2⟩
  · unfold dashPath
    split
    next hd =>
      exact ⟨fun habs => absurd habs (by decide), fun hne => absurd (beq_iff_eq.mp hd) hne⟩
    next hd =>
      have h2 : u.role ≠ "doctor" := by
        intro hrole
        exact hd (by rw [hrole]; exact beq_self_eq_true _)
      exact ⟨fun _ => h2, fun _ => rfl⟩

/-- The doctor account used by the C4 witness. -/
def accD : Account := ⟨10002, "D", "d@x.com", none, get_password_hash "p", "doctor"⟩

/-- Witness for C4: a store holding one doctor account, logging in with the
matching password and role. -/
theorem claim_C4_login_success_witness :
    login_user [accD] accD.email "p" "doctor"
      = dashPath accD.role ++ "?uid=" ++ toString accD.uid
    ∧ (dashPath accD.role = "/doctor_dashboard" ↔ accD.role = "doctor")
    ∧ (dashPath accD.role = "/dashboard" ↔ accD.role ≠ "doctor") :=
  claim_C4_login_success [accD] accD "p" "doctor" (by simp) (List.Mem.head _) rfl rfl

/-! ## C5: password mismatch on signup -/

/-- A signup request whose password and confirmation differ. -/
def dataPwMismatch : SignupData :=
  ⟨some "N", some "n@x.com", none, some "a", some "b", some "user"⟩

/-- C5 counterexample: on a mismatched-password request the code answers
400 and leaves the store unchanged, but its message is the literal
"Passwords do not match.", not the claimed "passwords do not match". -/
theorem claim_C5_counterexample :
    (signup_user [] dataPwMismatch true).1.status = 400
    ∧ (signup_user [] dataPwMismatch true).1.message = "Passwords do not match."
    ∧ ("Passwords do not match." : String) ≠ "passwords do not match"
    ∧ (signup_user [] dataPwMismatch true).2 = [] := by
  refine ⟨rfl, rfl, by decide, rfl⟩

/-- C5 as amended: whenever password differs from confirm_password the
workflow answers HTTP 400 with the message "Passwords do not match." and
the store is unchanged. -/
theorem claim_C5_amended (db : Store) (data : SignupData) (ok : Bool)
    (h : data.password ≠ data.confirm_password) :
    (signup_user db data ok).1.status = 400
    ∧ (signup_user db data ok).1.message = "Passwords do not match."
    ∧ (signup_user db data ok).2 = db := by
  unfold signup_user
  rw [if_pos h]
  exact ⟨rfl, rfl, rfl⟩

/-- Witness for the amended C5 at a concrete mismatched request. -/
theorem claim_C5_amended_witness :
    (signup_user [] dataPwMismatch true).1.status = 400
    ∧ (signup_user [] dataPwMismatch true).1.message = "Passwords do not match."
    ∧ (signup_user [] dataPwMismatch true).2 = [] :=
  claim_C5_amended [] dataPwMismatch true (by decide)

/-! ## C6: duplicate email on signup -/

/-- A request reusing the stored email with matching passwords. -/
def dataDup : SignupData :=
  ⟨some "N", some "a@x.com", none, some "p", some "p", some "user"⟩

/-- The same duplicate email with mismatched passwords. -/
def dataDupMismatch : SignupData :=
  ⟨some "N", some "a@x.com", none, some "a", some "b", some "user"⟩

/-- C6 counterexample: with the email already stored, a request whose
passwords also mismatch answers 400, not the claimed 409 (the password
check runs first); and on the 409 path the message is the literal
"Email already registered.", not "email already registered". -/
theorem claim_C6_counterexample :
    (signup_user [accA] dataDupMismatch true).1.status = 400
    ∧ (400 : Nat) ≠ 409
    ∧ (signup_user [accA] dataDup true).1.status = 409
    ∧ (signup_user [accA] dataDup true).1.message = "Email already registered."
    ∧ ("Email already registered." : String) ≠ "email already registered" := by
  refine ⟨by decide, by decide, by decide, by decide, by decide⟩

/-- C6 as amended: for a request whose password equals its confirmation
and whose email is already the email of a stored account, the workflow
answers HTTP 409 with the message "Email already registered." and the
store is unchanged, so no second account with that email is created. -/
theorem claim_C6_amended (db : Store) (data : SignupData) (e : String) (ok : Bool)
    (hpw : data.password = data.confirm_password)
    (he : data.email = some e) (hmem : e ∈ db.map Account.email) :
    (signup_user db data ok).1.status = 409
    ∧ (signup_user db data ok).1.message = "Email already registered."
    ∧ (signup_user db data ok).2 = db := by
  have hsome : (findByEmailOpt db data.email).isSome = true := by
    rw [he]
    simp only [findByEmailOpt, findByEmail]
    rw [List.find?_isSome]
    rcases List.mem_map.mp hmem with ⟨u, hu, hue⟩
    exact ⟨u, hu, by rw [hue]; exact beq_self_eq_true _⟩
  unfold signup_user
  rw [if_neg (fun hc => hc hpw)]
  rw [if_pos hsome]
  exact ⟨rfl, rfl, rfl⟩

/-- Witness for the amended C6 at a concrete duplicate-email request. -/
theorem claim_C6_amended_witness :
    (signup_user [accA] dataDup true).1.status = 409
    ∧ (signup_user [accA] dataDup true).1.message = "Email already registered."
    ∧ (signup_user [accA] dataDup true).2 = [accA] :=
  claim_C6_amended [accA] dataDup "a@x.com" true rfl rfl (by decide)

/-! ## C7: atomicity of account creation -/

/-- C7: account creation is atomic. Every signup outcome either leaves the
store unchanged or answers 201 with exactly the one full new row appended;
and when both validation checks pass but the persistence step fails, the
workflow answers HTTP 500 with the store unchanged. -/
theorem claim_C7_atomic (db : Store) (data : SignupData) (ok : Bool) :
    ((signup_user db data ok).2 = db
     ∨ ((signup_user db data ok).1.status = 201
        ∧ ∃ pw nm em, data.password = some pw ∧ data.name = some nm
            ∧ data.email = some em
            ∧ (signup_user db data ok).2 = db ++ [newUserOf db data pw nm em]))
    ∧ (data.password = data.confirm_password →
       findByEmailOpt db data.email = none → ok = false →
       (signup_user db data ok).1.status = 500 ∧ (signup_user db data ok).2 = db) := by
  constructor
  · unfold signup_user
    split
    · left; rfl
    · split
      · left; rfl
      · rcases hp : data.password with _ | pw
        · left; rfl
        · rcases hn : data.name with _ | nm
          · left; rfl
          · rcases he : data.email with _ | em
            · left; rfl
            · cases ok
              · left; rfl
              · right
                exact ⟨rfl, pw, nm, em, rfl, rfl, rfl, rfl⟩
  · intro h1 h2 h3
    unfold signup_user
    rw [if_neg (fun hc => hc h1)]
    rw [if_neg (by rw [h2]; simp)]
    subst h3
    rcases hp : data.password with _ | pw
    · exact ⟨rfl, rfl⟩
    · rcases hn : data.name with _ | nm
      · exact ⟨rfl, rfl⟩
      · rcases he : data.email with _ | em
        · exact ⟨rfl, rfl⟩
        · exact ⟨rfl, rfl⟩

/-- A well-formed signup request used by the C7 witness. -/
def dataOkReq : SignupData :=
  ⟨some "N", some "n@x.com", none, some "p", some "p", some "user"⟩

/-- Witness for C7: a failing persistence step on a valid request against
the empty store answers 500 and leaves the store empty. -/
theorem claim_C7_atomic_witness :
    (signup_user [] dataOkReq false).1.status = 500
    ∧ (signup_user [] dataOkReq false).2 = [] :=
  (claim_C7_atomic [] dataOkReq false).2 rfl rfl rfl

/-! ## C8: properties of the password hasher -/

/-- All eight state words fit in 32 bits. -/
def bounded32 (s : Hash8) : Prop :=
  s.a < 4294967296 ∧ s.b < 4294967296 ∧ s.c < 4294967296 ∧ s.d < 4294967296
  ∧ s.e < 4294967296 ∧ s.f < 4294967296 ∧ s.g < 4294967296 ∧ s.h < 4294967296

theorem add32_lt (a b : Nat) : add32 a b < 4294967296 :=
  Nat.mod_lt _ (by omega)

theorem compressChunk_bounded (s : Hash8) (chunk : List Nat) :
    bounded32 (compressChunk s chunk) := by
  unfold bounded32 compressChunk
  exact ⟨add32_lt _ _, add32_lt _ _, add32_lt _ _, add32_lt _ _,
         add32_lt _ _, add32_lt _ _, add32_lt _ _, add32_lt _ _⟩

theorem foldl_compress_bounded (l : List (List Nat)) (s : Hash8)
    (hs : bounded32 s) : bounded32 (l.foldl compressChunk s) := by
  induction l generalizing s with
  | nil => exact hs
  | cons c cs ih =>
      rw [List.foldl_cons]
      exact ih _ (compressChunk_bounded s c)

theorem initH_bounded : bounded32 initH := by
  unfold bounded32
  refine ⟨?_, ?_, ?_, ?_, ?_, ?_, ?_, ?_⟩ <;> decide

theorem horner_step {x y A : Nat} (hx : x < A) (hy : y < 4294967296) :
    x * 4294967296 + y < A * 4294967296 := by
  calc x * 4294967296 + y < x * 4294967296 + 4294967296 := by omega
    _ = (x + 1) * 4294967296 := by ring
    _ ≤ A * 4294967296 := Nat.mul_le_mul_right _ hx

/-- Every digest value fits in 256 bits. -/
theorem sha256Nat_lt (msg : List Nat) : sha256Nat msg < 4294967296 ^ 8 := by
  have hb : bounded32 (sha256 msg) := by
    unfold sha256
    exact foldl_compress_bounded _ _ initH_bounded
  rcases hb with ⟨h1, h2, h3, h4, h5, h6, h7, h8⟩
  have s2 := horner_step h1 h2
  have s3 := horner_step s2 h3
  have s4 := horner_step s3 h4
  have s5 := horner_step s4 h5
  have s6 := horner_step s5 h6
  have s7 := horner_step s6 h7
  have s8 := horner_step s7 h8
  have hp : (4294967296 : Nat) ^ 8
      = ((((((4294967296 * 4294967296) * 4294967296) * 4294967296) * 4294967296)
            * 4294967296) * 4294967296) * 4294967296 := by norm_num
  unfold sha256Nat digestNat
  rw [hp]
  exact s8

/-- Since inputs are unbounded strings while digests take fewer than
4294967296 ^ 8 values, two distinct passwords share a digest. -/
theorem hash_collision_exists :
    ∃ p q : String, p ≠ q ∧ get_password_hash p = get_password_hash q := by
  classical
  let f : Fin (4294967296 ^ 8 + 1) → Fin (4294967296 ^ 8) := fun i =>
    ⟨sha256Nat (utf8Encode (String.mk (List.replicate i.val 'a'))), sha256Nat_lt _⟩
  have hcard : Fintype.card (Fin (4294967296 ^ 8))
      < Fintype.card (Fin (4294967296 ^ 8 + 1)) := by
    simp only [Fintype.card_fin]
    omega
  obtain ⟨x, y, hxy, hf⟩ := Fintype.exists_ne_map_eq_of_card_lt f hcard
  refine ⟨String.mk (List.replicate x.val 'a'), String.mk (List.replicate y.val 'a'), ?_, ?_⟩
  · intro he
    apply hxy
    apply Fin.ext
    have hlen : (List.replicate x.val 'a').length = (List.replicate y.val 'a').length := by
      have hdata := congrArg String.data he
      simp only [] at hdata
      rw [hdata]
    simpa using hlen
  · have hv : sha256Nat (utf8Encode (String.mk (List.replicate x.val 'a')))
        = sha256Nat (utf8Encode (String.mk (List.replicate y.val 'a'))) := by
      have := congrArg Fin.val hf
      simpa [f] using this
    unfold get_password_hash hexdigest
    rw [hv]

/-- C8 counterexample: the claim that verify(p, hash(q)) is false for all
p ≠ q fails, because SHA-256 maps the unbounded space of passwords into
finitely many 64-character digests: there exist two distinct passwords
such that verifying one against the digest of the other succeeds. -/
theorem claim_C8_counterexample :
    ∃ p q : String, p ≠ q ∧ verify_password p (get_password_hash q) = true := by
  obtain ⟨p, q, hne, heq⟩ := hash_collision_exists
  refine ⟨p, q, hne, ?_⟩
  unfold verify_password
  rw [heq]
  exact beq_self_eq_true _

/-- C8 as amended: hashing is deterministic, verification of a password
against its own digest always succeeds, and verification against the
digest of another password succeeds exactly when the two digests coincide
— which can happen for distinct passwords, the digest space being finite. -/
theorem claim_C8_amended (p q : String) :
    get_password_hash p = get_password_hash p
    ∧ verify_password p (get_password_hash p) = true
    ∧ (verify_password p (get_password_hash q) = true
        ↔ get_password_hash p = get_password_hash q) :=
  ⟨rfl, verify_password_hash_self p, by unfold verify_password; exact beq_iff_eq⟩

/-! ## C9 and C10: the dashboard lookup -/

/-- C9: over stores satisfying the data-model invariants (uids unique and
at least 10000), the dashboard resolves an absent uid or a uid matching no
account to the placeholder "Anonymous" (it is a total function, so no
error can be raised), and resolves the uid of a stored account to the
name of that account. -/
theorem claim_C9_resolve (db : Store) (uid : Option Int)
    (hge : ∀ u ∈ db, (10000 : Int) ≤ u.uid)
    (hnd : (db.map Account.uid).Nodup) :
    (uid = none → read_dashboard db uid = "Anonymous")
    ∧ (∀ n : Int, uid = some n → (∀ u ∈ db, u.uid ≠ n) →
        read_dashboard db uid = "Anonymous")
    ∧ (∀ u, u ∈ db → uid = some u.uid → read_dashboard db uid = u.name) := by
  refine ⟨?_, ?_, ?_⟩
  · intro h
    subst h
    rfl
  · intro n h habs
    subst h
    by_cases hn : n = 0
    · simp [read_dashboard, hn]
    · have hfind : db.find? (fun u => u.uid == n) = none := by
        rw [List.find?_eq_none]
        intro u hu
        simp only [beq_iff_eq]
        exact habs u hu
      simp [read_dashboard, hn, hfind]
  · intro u hu h
    subst h
    have hne : u.uid ≠ 0 := by
      have := hge u hu
      omega
    have hfind : db.find? (fun v => v.uid == u.uid) = some u :=
      find?_key_unique Account.uid db u hu hnd
    simp [read_dashboard, hne, hfind]

/-- The account used by the C9 witness. -/
def accW : Account := ⟨10000, "Alice", "w@x.com", none, "", "user"⟩

/-- Witness for C9: an absent uid, a uid matching no account, and the uid
of the stored account. -/
theorem claim_C9_resolve_witness :
    read_dashboard [accW] none = "Anonymous"
    ∧ read_dashboard [accW] (some 99999) = "Anonymous"
    ∧ read_dashboard [accW] (some accW.uid) = accW.name :=
  ⟨(claim_C9_resolve [accW] none (by decide) (by decide)).1 rfl,
   (claim_C9_resolve [accW] (some 99999) (by decide) (by decide)).2.1 99999 rfl (by decide),
   (claim_C9_resolve [accW] (some accW.uid) (by decide) (by decide)).2.2
     accW (List.Mem.head _) rfl⟩

/-- C10: a dashboard request with uid 0 is treated exactly like an absent
uid: whatever the store holds — even a store whose first account has uid 0
— the resolved name is "Anonymous", because the handler guards on the
truthiness of the uid (0 is falsy in Python) rather than on its presence. -/
theorem claim_C10_zero_uid (db : Store) :
    read_dashboard db (some 0) = "Anonymous"
    ∧ read_dashboard db none = "Anonymous"
    ∧ read_dashboard (⟨0, "Zero", "z@x.com", none, "", "user"⟩ :: db) (some 0)
        = "Anonymous" := by
  refine ⟨?_, rfl, ?_⟩ <;> simp [read_dashboard]

end HealthMate
